import Mathlib

/-!
Verification of the EasyAF3Config core: a shallow embedding of
src/easyaf3config/core/sequence.py, src/easyaf3config/core/config.py and
src/easyaf3config/utils/fasta.py, together with theorems settling the
specification claims about construction-time validation, dictionary
serialization and parsing.

Python values flowing through the code (JSON-representable data) are
modelled by the inductive type JValue; Python dicts become association
lists preserving insertion order; raised exceptions become Except String
carrying the exception message.
-/

namespace EasyAF3

/-- JSON-like Python values: None, bool, int, str, list, dict. -/
inductive JValue where
  | null : JValue
  | bool : Bool → JValue
  | int : Int → JValue
  | str : String → JValue
  | arr : List JValue → JValue
  | obj : List (String × JValue) → JValue
deriving Repr

/-- Dict lookup: first binding for the key, if any (Python dict keys are
unique, so first-match agrees with dict access). -/
def jlookup : List (String × JValue) → String → Option JValue
  | [], _ => Option.none
  | (k, v) :: rest, key => if k = key then some v else jlookup rest key

/-- Python dict.get(key, default). -/
def jget (kvs : List (String × JValue)) (key : String) (dflt : JValue) : JValue :=
  match jlookup kvs key with
  | some v => v
  | Option.none => dflt

/-- Python truthiness of a value (bool(v)). -/
def JValue.truthy : JValue → Bool
  | .null => false
  | .bool b => b
  | .int n => n != 0
  | .str s => s != ""
  | .arr xs => !xs.isEmpty
  | .obj kvs => !kvs.isEmpty

/-- Whether the value is Python None. -/
def JValue.isNull : JValue → Bool
  | .null => true
  | _ => false

/-- Python len(v), defined for sized values only (str, list, dict). -/
def pyLen : JValue → Option Nat
  | .str s => some s.length
  | .arr xs => some xs.length
  | .obj kvs => some kvs.length
  | _ => Option.none

/-- Python str.upper(), restricted to the ASCII case mapping (the
sequence alphabets under validation are ASCII letters). -/
def pyUpper (s : String) : String :=
  ⟨s.data.map Char.toUpper⟩

/-- Python str.lower(), restricted to the ASCII case mapping. -/
def pyLower (s : String) : String :=
  ⟨s.data.map Char.toLower⟩

/-- The three sequence variants (ProteinSequence, DNASequence, RNASequence). -/
inductive SeqType where
  | protein : SeqType
  | dna : SeqType
  | rna : SeqType
deriving DecidableEq, Repr

/-- The _get_type tag of each variant. -/
def SeqType.tag : SeqType → String
  | .protein => "protein"
  | .dna => "dna"
  | .rna => "rna"

/-- valid_amino_acids of ProteinSequence._validate_sequence. -/
def validAminoAcids : List Char :=
  ['A', 'C', 'D', 'E', 'F', 'G', 'H', 'I', 'K', 'L',
   'M', 'N', 'P', 'Q', 'R', 'S', 'T', 'V', 'W', 'Y']

/-- valid_nucleotides of DNASequence._validate_sequence. -/
def validDnaNucleotides : List Char := ['A', 'T', 'C', 'G']

/-- valid_nucleotides of RNASequence._validate_sequence. -/
def validRnaNucleotides : List Char := ['A', 'U', 'C', 'G']

/-- The allowed alphabet of each variant. -/
def SeqType.alphabet : SeqType → List Char
  | .protein => validAminoAcids
  | .dna => validDnaNucleotides
  | .rna => validRnaNucleotides

/-- The ValueError message of each variant's _validate_sequence. -/
def invalidAlphabetMsg : SeqType → String
  | .protein => "Invalid protein sequence: contains invalid amino acids"
  | .dna => "Invalid DNA sequence: contains invalid nucleotides"
  | .rna => "Invalid RNA sequence: contains invalid nucleotides"

/-- _validate_sequence of the subclasses: all(c in alphabet for c in
sequence.upper()).  A non-string sequence value has no .upper attribute and
raises (AttributeError). -/
def validateSequenceChars (ty : SeqType) (v : JValue) : Except String Unit :=
  match v with
  | .str s =>
      if (pyUpper s).data.all (fun c => ty.alphabet.contains c) then
        Except.ok ()
      else
        Except.error (invalidAlphabetMsg ty)
  | _ => Except.error "AttributeError: object has no attribute upper"

/-- Modification dataclass: a PTM record.  Field values are kept as the
caller supplied them (Python does not enforce the annotations). -/
structure Modification where
  ptmType : JValue
  ptmPosition : JValue
deriving Repr

/-- Modification.to_dict. -/
def Modification.to_dict (m : Modification) : JValue :=
  .obj [("ptmType", m.ptmType), ("ptmPosition", m.ptmPosition)]

/-- Modification(**mod): keyword-unpack a mapping into the two required
fields; a non-mapping or a key set other than exactly
ptmType/ptmPosition raises (TypeError). -/
def mkModification (v : JValue) : Except String Modification :=
  match v with
  | .obj kvs =>
      match jlookup kvs "ptmType", jlookup kvs "ptmPosition" with
      | some t, some p =>
          if kvs.length = 2 then Except.ok (Modification.mk t p)
          else Except.error "TypeError: unexpected keyword argument"
      | _, _ => Except.error "TypeError: missing required argument"
  | _ => Except.error "TypeError: argument after ** must be a mapping"

/-- The modifications field after _process_modifications: Python None, a
list whose items were normalized to Modification records, or any other
value left unchanged (the isinstance list check does not fire). -/
inductive ModsField where
  | none : ModsField
  | mods : List Modification → ModsField
  | other : JValue → ModsField
deriving Repr

/-- Map a fallible function over a list, stopping at the first error
(the list comprehension of _process_modifications, and the to_dict loop
of AfJobConfig). -/
def mapE {α β : Type} (f : α → Except String β) : List α → Except String (List β)
  | [] => Except.ok []
  | x :: xs =>
      match f x with
      | Except.error e => Except.error e
      | Except.ok y =>
          match mapE f xs with
          | Except.error e => Except.error e
          | Except.ok ys => Except.ok (y :: ys)

/-- _process_modifications: a list is normalized item by item via
Modification(**item); any non-list value (including None) is left as is. -/
def processModifications (v : JValue) : Except String ModsField :=
  match v with
  | .null => Except.ok ModsField.none
  | .arr xs =>
      match mapE mkModification xs with
      | Except.error e => Except.error e
      | Except.ok l => Except.ok (ModsField.mods l)
  | w => Except.ok (ModsField.other w)

/-- A constructed Sequence variant instance.  The type tag is derived
(init=False field set in __post_init__), never caller-supplied. -/
structure Sequence where
  id : JValue
  sequence : JValue
  type : SeqType
  modifications : ModsField
  unpairedMsa : JValue
  unpairedMsaPath : JValue
  pairedMsa : JValue
  pairedMsaPath : JValue
  templates : JValue
deriving Repr

/-- Sequence._validate_fields: required-field truthiness (the type tag of a
subclass is a non-empty string, hence always truthy), the two MSA
mutual-exclusion checks (on truthiness, as in the source), then the
subclass alphabet validation. -/
def validateFields (ty : SeqType) (id seq uMsa uMsaPath pMsa pMsaPath : JValue) :
    Except String Unit :=
  if !(id.truthy && seq.truthy) then
    Except.error "type, id, and sequence are required fields"
  else if uMsa.truthy && uMsaPath.truthy then
    Except.error "unpairedMsa and unpairedMsaPath are mutually exclusive"
  else if pMsa.truthy && pMsaPath.truthy then
    Except.error "pairedMsa and pairedMsaPath are mutually exclusive"
  else
    validateSequenceChars ty seq

/-- Construction of a Sequence variant (dataclass __init__ followed by
__post_init__: set type, _validate_fields, _process_modifications).
Stored fields are exactly the caller's values; only modifications is
normalized. -/
def mkSequence (ty : SeqType) (id seq mods uMsa uMsaPath pMsa pMsaPath templates : JValue) :
    Except String Sequence :=
  match validateFields ty id seq uMsa uMsaPath pMsa pMsaPath with
  | Except.error e => Except.error e
  | Except.ok _ =>
      match processModifications mods with
      | Except.error e => Except.error e
      | Except.ok m =>
          Except.ok (Sequence.mk id seq ty m uMsa uMsaPath pMsa pMsaPath templates)

/-- result[type][key] = value executed only when value is not None. -/
def appendIfNotNull (key : String) (v : JValue) (fields : List (String × JValue)) :
    List (String × JValue) :=
  if v.isNull then fields else fields ++ [(key, v)]

/-- The modifications binding of Sequence.to_dict: emitted only when the
field is truthy (a non-empty list after normalization); iterating a
truthy non-list value and calling to_dict on its items raises. -/
def modsDictPart : ModsField → Except String (List (String × JValue))
  | ModsField.none => Except.ok []
  | ModsField.mods l =>
      if l.isEmpty then Except.ok []
      else Except.ok [("modifications", JValue.arr (l.map Modification.to_dict))]
  | ModsField.other v =>
      if v.truthy then
        Except.error "TypeError: modifications items are not Modification records"
      else Except.ok []

/-- The nested mapping built by Sequence.to_dict: id and sequence always,
then modifications only when truthy, then each MSA/templates field only
when not None. -/
def seqDictFields (s : Sequence) : Except String (List (String × JValue)) :=
  match modsDictPart s.modifications with
  | Except.error e => Except.error e
  | Except.ok mp =>
      Except.ok
        (appendIfNotNull "templates" s.templates
          (appendIfNotNull "pairedMsaPath" s.pairedMsaPath
            (appendIfNotNull "pairedMsa" s.pairedMsa
              (appendIfNotNull "unpairedMsaPath" s.unpairedMsaPath
                (appendIfNotNull "unpairedMsa" s.unpairedMsa
                  ([("id", s.id), ("sequence", s.sequence)] ++ mp))))))

/-- Sequence.to_dict: a single top-level key, the variant's type tag. -/
def Sequence.to_dict (s : Sequence) : Except String JValue :=
  match seqDictFields s with
  | Except.error e => Except.error e
  | Except.ok fields => Except.ok (JValue.obj [(s.type.tag, JValue.obj fields)])

/-- Dialect(str, Enum): the supported model dialects. -/
inductive Dialect where
  | alphafold3 : Dialect
deriving DecidableEq, Repr

/-- The underlying string of a Dialect member. -/
def Dialect.value : Dialect → String
  | .alphafold3 => "alphafold3"

/-- Version(int, Enum): the supported configuration versions. -/
inductive Version where
  | v1 : Version
  | v2 : Version
deriving DecidableEq, Repr

/-- The underlying integer of a Version member. -/
def Version.value : Version → Int
  | .v1 => 1
  | .v2 => 2

/-- A dialect argument to the constructor: an enumeration member or a
plain value. -/
inductive DialectInput where
  | mem : Dialect → DialectInput
  | val : JValue → DialectInput
deriving Repr

/-- A version argument to the constructor: an enumeration member or a
plain value. -/
inductive VersionInput where
  | mem : Version → VersionInput
  | val : JValue → VersionInput
deriving Repr

/-- The stored dialect after __post_init__: a member, or a non-string
value stored unvalidated (the isinstance str check does not fire). -/
inductive DialectField where
  | mem : Dialect → DialectField
  | raw : JValue → DialectField
deriving Repr

/-- The stored version after __post_init__: a member, or a non-integer
value stored unvalidated (the isinstance int check does not fire). -/
inductive VersionField where
  | mem : Version → VersionField
  | raw : JValue → VersionField
deriving Repr

/-- The isinstance(version, int) branch of AfJobConfig.__post_init__.
A member is an int instance and re-coerces to itself; an int value must
match a member; a Python bool is an int instance (True coerces to V1,
False matches no member); every other value is stored unvalidated. -/
def coerceVersion : VersionInput → Except String VersionField
  | .mem v => Except.ok (VersionField.mem v)
  | .val (.int n) =>
      if n = 1 then Except.ok (VersionField.mem Version.v1)
      else if n = 2 then Except.ok (VersionField.mem Version.v2)
      else Except.error ("Unsupported version: " ++ toString n ++ ". Supported versions are [1, 2]")
  | .val (.bool b) =>
      if b then Except.ok (VersionField.mem Version.v1)
      else Except.error "Unsupported version: False. Supported versions are [1, 2]"
  | .val j => Except.ok (VersionField.raw j)

/-- The isinstance(dialect, str) branch of AfJobConfig.__post_init__.
A member is a str instance and re-coerces to itself; a string value must
match a member; every other value is stored unvalidated. -/
def coerceDialect : DialectInput → Except String DialectField
  | .mem d => Except.ok (DialectField.mem d)
  | .val (.str s) =>
      if s = "alphafold3" then Except.ok (DialectField.mem Dialect.alphafold3)
      else Except.error ("Unsupported dialect: " ++ s)
  | .val j => Except.ok (DialectField.raw j)

/-- A constructed AfJobConfig instance. -/
structure AfJobConfig where
  name : JValue
  modelSeeds : JValue
  sequences : List Sequence
  dialect : DialectField
  version : VersionField
  bondedAtomPairs : JValue
  userCCD : JValue
deriving Repr

/-- AfJobConfig construction (dataclass __init__ plus __post_init__):
name truthy, modelSeeds truthy and of length at least one (len of an
unsized value raises), sequences non-empty, then version and dialect
coercion, in that order. -/
def mkAfJobConfig (name modelSeeds : JValue) (sequences : List Sequence)
    (dialect : DialectInput) (version : VersionInput)
    (bondedAtomPairs userCCD : JValue) : Except String AfJobConfig :=
  if !name.truthy then Except.error "Job name is required"
  else if !modelSeeds.truthy then Except.error "At least one model seed is required"
  else
    match pyLen modelSeeds with
    | Option.none => Except.error "TypeError: object has no len()"
    | some n =>
        if n < 1 then Except.error "At least one model seed is required"
        else if sequences.isEmpty then Except.error "At least one sequence is required"
        else
          match coerceVersion version with
          | Except.error e => Except.error e
          | Except.ok v =>
              match coerceDialect dialect with
              | Except.error e => Except.error e
              | Except.ok d =>
                  Except.ok (AfJobConfig.mk name modelSeeds sequences d v
                    bondedAtomPairs userCCD)

/-- AfJobConfig.to_dict: name, modelSeeds, sequences (each serialized),
dialect.value, version.value; bondedAtomPairs and userCCD only when not
None.  Accessing .value on an unvalidated raw dialect or version raises
(AttributeError). -/
def AfJobConfig.to_dict (c : AfJobConfig) : Except String JValue :=
  match mapE Sequence.to_dict c.sequences with
  | Except.error e => Except.error e
  | Except.ok seqDicts =>
      match c.dialect with
      | DialectField.raw _ => Except.error "AttributeError: object has no attribute value"
      | DialectField.mem d =>
          match c.version with
          | VersionField.raw _ => Except.error "AttributeError: object has no attribute value"
          | VersionField.mem v =>
              Except.ok (JValue.obj
                (appendIfNotNull "userCCD" c.userCCD
                  (appendIfNotNull "bondedAtomPairs" c.bondedAtomPairs
                    [("name", c.name), ("modelSeeds", c.modelSeeds),
                     ("sequences", JValue.arr seqDicts),
                     ("dialect", JValue.str d.value),
                     ("version", JValue.int v.value)])))

/-- The sequence_types dispatch map of AfJobConfig.from_dict, keyed by
the lowercased type name. -/
def lookupSequenceClass (tyName : String) : Option SeqType :=
  if pyLower tyName = "protein" then some SeqType.protein
  else if pyLower tyName = "rna" then some SeqType.rna
  else if pyLower tyName = "dna" then some SeqType.dna
  else Option.none

/-- The body of the try block: eight seq_content.get calls feeding the
variant constructor.  A non-dict content has no .get attribute and the
first call raises (AttributeError), still inside the try block. -/
def buildSeqFromContent (ty : SeqType) (content : JValue) : Except String Sequence :=
  match content with
  | .obj kvs =>
      mkSequence ty (jget kvs "id" .null) (jget kvs "sequence" .null)
        (jget kvs "modifications" .null)
        (jget kvs "unpairedMsa" .null) (jget kvs "unpairedMsaPath" .null)
        (jget kvs "pairedMsa" .null) (jget kvs "pairedMsaPath" .null)
        (jget kvs "templates" .null)
  | _ => Except.error "AttributeError: object has no attribute get"

/-- One (seq_type, seq_content) item of a sequences entry: resolve the
class from the lowercased key (unrecognized names fail, unwrapped), then
construct inside try/except, wrapping any failure as
"Failed to create <seq_type> sequence: <cause>". -/
def buildSeqFromPair (tyKey : String) (content : JValue) : Except String Sequence :=
  match lookupSequenceClass tyKey with
  | Option.none => Except.error ("Unsupported sequence type: " ++ tyKey)
  | some ty =>
      match buildSeqFromContent ty content with
      | Except.ok s => Except.ok s
      | Except.error e => Except.error ("Failed to create " ++ tyKey ++ " sequence: " ++ e)

/-- The inner loop of AfJobConfig.from_dict over the key-value pairs of
one sequences entry. -/
def parseEntryPairs : List (String × JValue) → Except String (List Sequence)
  | [] => Except.ok []
  | (k, v) :: rest =>
      match buildSeqFromPair k v with
      | Except.error e => Except.error e
      | Except.ok s =>
          match parseEntryPairs rest with
          | Except.error e => Except.error e
          | Except.ok others => Except.ok (s :: others)

/-- The outer loop of AfJobConfig.from_dict over the sequences list: a
non-dict entry fails; a dict entry contributes one sequence per
key-value pair. -/
def parseSequencesData : List JValue → Except String (List Sequence)
  | [] => Except.ok []
  | entry :: rest =>
      match entry with
      | .obj kvs =>
          (match parseEntryPairs kvs with
           | Except.error e => Except.error e
           | Except.ok here =>
               match parseSequencesData rest with
               | Except.error e => Except.error e
               | Except.ok there => Except.ok (here ++ there))
      | _ => Except.error "Invalid sequence data format"

/-- AfJobConfig.from_dict: require a dict, read sequences (default []),
require a list, parse every entry, then call the constructor with
name/modelSeeds/dialect defaulting to None resp. [] and version
defaulting to the V2 member when the key is missing. -/
def AfJobConfig.from_dict (data : JValue) : Except String AfJobConfig :=
  match data with
  | .obj kvs =>
      (match jget kvs "sequences" (.arr []) with
       | .arr entries =>
           (match parseSequencesData entries with
            | Except.error e => Except.error e
            | Except.ok sequences =>
                mkAfJobConfig (jget kvs "name" .null) (jget kvs "modelSeeds" (.arr []))
                  sequences
                  (DialectInput.val (jget kvs "dialect" .null))
                  (match jlookup kvs "version" with
                   | some j => VersionInput.val j
                   | Option.none => VersionInput.mem Version.v2)
                  (jget kvs "bondedAtomPairs" .null) (jget kvs "userCCD" .null))
       | _ => Except.error "sequences must be a list")
  | _ => Except.error "Input must be a dictionary"

/-- The ProteinSequence built for the record at 0-based position i of the
FASTA iteration: the record id, or the placeholder seq_<i+1> when the id
is empty; the raw sequence string unchanged. -/
def fastaPairSeq (i : Nat) (p : String × String) : Except String Sequence :=
  mkSequence SeqType.protein
    (.str (if p.1 = "" then "seq_" ++ toString (i + 1) else p.1))
    (.str p.2) .null .null .null .null .null .null

/-- The record loop of load_sequences_from_fasta, from 0-based position i. -/
def loadFastaGo : Nat → List (String × String) → Except String (List Sequence)
  | _, [] => Except.ok []
  | i, p :: rest =>
      match fastaPairSeq i p with
      | Except.error e => Except.error e
      | Except.ok s =>
          match loadFastaGo (i + 1) rest with
          | Except.error e => Except.error e
          | Except.ok others => Except.ok (s :: others)

/-- load_sequences_from_fasta over the ordered (identifier, rawString)
pairs yielded by the external FASTA reader (file access and progress
printing are outside the core). -/
def load_sequences_from_fasta (pairs : List (String × String)) :
    Except String (List Sequence) :=
  loadFastaGo 0 pairs

/-- Whether a fallible computation succeeded. -/
def exceptOk {α : Type} : Except String α → Bool
  | Except.ok _ => true
  | Except.error _ => false

/-- The value under an optional binding, Python None when absent
(dict.get with default None). -/
def jvOfOpt : Option JValue → JValue
  | some v => v
  | Option.none => .null

/-- The binding Sequence.to_dict emits for a pass-through field: present
exactly when the field is not None. -/
def optEmit (v : JValue) : Option JValue :=
  if v.isNull then Option.none else some v

/-- The binding Sequence.to_dict emits for the modifications field:
present exactly when the field is a non-empty normalized list. -/
def modsEmit : ModsField → Option JValue
  | ModsField.mods l =>
      if l.isEmpty then Option.none
      else some (JValue.arr (l.map Modification.to_dict))
  | _ => Option.none

/-- A modifications field that serializes losslessly: absent, or a
non-empty list of normalized records.  (An empty list is stored but
serialized as an absent key; a non-list value is stored unchanged.) -/
def goodMods : ModsField → Bool
  | ModsField.none => true
  | ModsField.mods l => !l.isEmpty
  | ModsField.other _ => false

/-- The stored fields of a constructed Sequence re-pass _validate_fields
(they are exactly the validated constructor arguments). -/
def seqWF (s : Sequence) : Bool :=
  exceptOk (validateFields s.type s.id s.sequence s.unpairedMsa s.unpairedMsaPath
    s.pairedMsa s.pairedMsaPath)

/-- The invariants a constructed AfJobConfig satisfies: truthy name,
truthy sized modelSeeds, non-empty sequences each re-validating. -/
def cfgWF (c : AfJobConfig) : Bool :=
  c.name.truthy && c.modelSeeds.truthy && (pyLen c.modelSeeds).isSome &&
  !c.sequences.isEmpty && c.sequences.all seqWF

/-- Whether every sequence of a configuration has a losslessly
serializable modifications field. -/
def cfgGoodMods (c : AfJobConfig) : Bool :=
  c.sequences.all (fun s => goodMods s.modifications)

/-- from_dict then to_dict then from_dict (the second parse of the
round-trip law), propagating failures. -/
def reparse (data : JValue) : Except String AfJobConfig :=
  match AfJobConfig.from_dict data with
  | Except.error e => Except.error e
  | Except.ok c =>
      match AfJobConfig.to_dict c with
      | Except.error e => Except.error e
      | Except.ok d => AfJobConfig.from_dict d

/-- Observe the stored version of a parse result. -/
def cfgVersionOf : Except String AfJobConfig → Option VersionField
  | Except.ok c => some c.version
  | Except.error _ => Option.none

/-- Observe the stored dialect of a parse result. -/
def cfgDialectOf : Except String AfJobConfig → Option DialectField
  | Except.ok c => some c.dialect
  | Except.error _ => Option.none

/-- Observe the modifications field of the first sequence of a parse
result. -/
def firstSeqModsOf : Except String AfJobConfig → Option ModsField
  | Except.ok c =>
      match c.sequences with
      | s :: _ => some s.modifications
      | [] => Option.none
  | Except.error _ => Option.none

/-- Whether a version argument trips the __post_init__ validation: only
int instances (Python ints and bools) are checked. -/
def versionInputFails : VersionInput → Bool
  | VersionInput.mem _ => false
  | VersionInput.val (.int n) => !(n == 1 || n == 2)
  | VersionInput.val (.bool b) => !b
  | VersionInput.val _ => false

/-- Whether a dialect argument trips the __post_init__ validation: only
str instances are checked. -/
def dialectInputFails : DialectInput → Bool
  | DialectInput.mem _ => false
  | DialectInput.val (.str s) => s != "alphafold3"
  | DialectInput.val _ => false

/-- A minimal valid protein entry of a sequences list. -/
def protEntry : JValue :=
  .obj [("protein", .obj [("id", .str "a"), ("sequence", .str "A")])]

/-- A wire document with a string-valued version tag: it resolves to no
Version member, yet parsing succeeds because the isinstance int check
does not fire. -/
def c1doc : JValue :=
  .obj [("name", .str "job1"), ("modelSeeds", .arr [.int 1]),
        ("sequences", .arr [protEntry]),
        ("dialect", .str "alphafold3"), ("version", .str "not-a-version")]

/-- A valid wire document whose protein entry carries an empty
modifications list. -/
def c2doc : JValue :=
  .obj [("name", .str "j"), ("modelSeeds", .arr [.int 1]),
        ("sequences", .arr [.obj [("protein", .obj
           [("id", .str "a"), ("sequence", .str "A"),
            ("modifications", .arr [])])]]),
        ("dialect", .str "alphafold3"), ("version", .int 2)]

/-- A wire document with no dialect key at all. -/
def c7doc : JValue :=
  .obj [("name", .str "job1"), ("modelSeeds", .arr [.int 1]),
        ("sequences", .arr [protEntry])]

/-- An entry whose protein sequence fails alphabet validation. -/
def badProtEntry : JValue :=
  .obj [("protein", .obj [("id", .str "x"), ("sequence", .str "AZ")])]

/-- A document whose failing sequence entry sits at index 0. -/
def c8docA : JValue :=
  .obj [("name", .str "job1"), ("modelSeeds", .arr [.int 1]),
        ("sequences", .arr [badProtEntry]),
        ("dialect", .str "alphafold3")]

/-- A document whose failing sequence entry sits at index 1, after a
valid entry. -/
def c8docB : JValue :=
  .obj [("name", .str "job1"), ("modelSeeds", .arr [.int 1]),
        ("sequences", .arr [protEntry, badProtEntry]),
        ("dialect", .str "alphafold3")]

/-- The number of key-value pairs of a sequences entry (0 for a
non-dict entry; entries of a successful parse are all dicts). -/
def entryKeyCount : JValue → Nat
  | .obj kvs => kvs.length
  | _ => 0

/-- The field list AfJobConfig.to_dict emits (named for reuse in the
round-trip theorems): the five mandatory bindings in order, then
bondedAtomPairs and userCCD only when not None. -/
def cfgEmitFields (c : AfJobConfig) (seqDicts : List JValue)
    (dm : Dialect) (vm : Version) : List (String × JValue) :=
  appendIfNotNull "userCCD" c.userCCD
    (appendIfNotNull "bondedAtomPairs" c.bondedAtomPairs
      [("name", c.name), ("modelSeeds", c.modelSeeds),
       ("sequences", JValue.arr seqDicts),
       ("dialect", JValue.str dm.value),
       ("version", JValue.int vm.value)])

/-! ### General lemmas about the embedding -/

theorem truthy_str (s : String) : (JValue.str s).truthy = true ↔ s ≠ "" := by
  simp [JValue.truthy]

theorem isNull_iff (v : JValue) : v.isNull = true ↔ v = JValue.null := by
  cases v <;> simp [JValue.isNull]

theorem jlookup_append (l1 l2 : List (String × JValue)) (k : String) :
    jlookup (l1 ++ l2) k =
      match jlookup l1 k with
      | some v => some v
      | Option.none => jlookup l2 k := by
  induction l1 with
  | nil => simp [jlookup]
  | cons hd tl ih =>
      obtain ⟨k1, v1⟩ := hd
      by_cases h : k1 = k
      · simp [jlookup, h]
      · simp [jlookup, h, ih]

theorem jlookup_appendIfNotNull_ne {k1 k : String} (v : JValue)
    (l : List (String × JValue)) (h : ¬ k1 = k) :
    jlookup (appendIfNotNull k1 v l) k = jlookup l k := by
  unfold appendIfNotNull
  by_cases hn : v.isNull
  · simp [hn]
  · rw [if_neg (by simp [hn]), jlookup_append]
    cases hl : jlookup l k <;> simp [jlookup, h]

theorem jlookup_appendIfNotNull_self (k : String) (v : JValue)
    (l : List (String × JValue)) (h : jlookup l k = Option.none) :
    jlookup (appendIfNotNull k v l) k = optEmit v := by
  unfold appendIfNotNull optEmit
  by_cases hn : v.isNull
  · simp [hn, h]
  · rw [if_neg (by simp [hn]), if_neg (by simp [hn]), jlookup_append, h]
    simp [jlookup]

theorem pyUpper_data (s : String) : (pyUpper s).data = s.data.map Char.toUpper := rfl

theorem mkSequence_ok_inv {ty : SeqType} {i sq mods uM uMP pM pMP t : JValue}
    {s : Sequence} (h : mkSequence ty i sq mods uM uMP pM pMP t = Except.ok s) :
    validateFields ty i sq uM uMP pM pMP = Except.ok () ∧
    processModifications mods = Except.ok s.modifications ∧
    s = Sequence.mk i sq ty s.modifications uM uMP pM pMP t := by
  unfold mkSequence at h
  cases hv : validateFields ty i sq uM uMP pM pMP with
  | error e => rw [hv] at h; exact absurd h (by simp)
  | ok u =>
      rw [hv] at h
      cases hm : processModifications mods with
      | error e => rw [hm] at h; exact absurd h (by simp)
      | ok m =>
          rw [hm] at h
          injection h with h2
          subst h2
          exact ⟨by cases u; rfl, rfl, rfl⟩

theorem modsDictPart_ok {m : ModsField} {mp : List (String × JValue)}
    (h : modsDictPart m = Except.ok mp) :
    mp = (match modsEmit m with
          | some v => [("modifications", v)]
          | Option.none => []) := by
  cases m with
  | none => injection h with h2; rw [← h2]; rfl
  | mods l =>
      simp only [modsDictPart] at h
      by_cases hl : l.isEmpty
      · rw [if_pos hl] at h
        injection h with h2
        rw [← h2]
        simp [modsEmit, hl]
      · rw [if_neg hl] at h
        injection h with h2
        rw [← h2]
        simp [modsEmit, hl]
  | other v =>
      simp only [modsDictPart] at h
      by_cases hv : v.truthy
      · rw [if_pos hv] at h; exact absurd h (by simp)
      · rw [if_neg hv] at h
        injection h with h2
        rw [← h2]; rfl

theorem seqDictFields_lookups (s : Sequence) (fl : List (String × JValue))
    (h : seqDictFields s = Except.ok fl) :
    jlookup fl "id" = some s.id ∧
    jlookup fl "sequence" = some s.sequence ∧
    jlookup fl "modifications" = modsEmit s.modifications ∧
    jlookup fl "unpairedMsa" = optEmit s.unpairedMsa ∧
    jlookup fl "unpairedMsaPath" = optEmit s.unpairedMsaPath ∧
    jlookup fl "pairedMsa" = optEmit s.pairedMsa ∧
    jlookup fl "pairedMsaPath" = optEmit s.pairedMsaPath ∧
    jlookup fl "templates" = optEmit s.templates := by
  unfold seqDictFields at h
  cases hmp : modsDictPart s.modifications with
  | error e => rw [hmp] at h; exact absurd h (by simp)
  | ok mp =>
      rw [hmp] at h
      injection h with h2
      subst h2
      have hmpEq := modsDictPart_ok hmp
      have hbaseMods : jlookup ([("id", s.id), ("sequence", s.sequence)] ++ mp)
          "modifications" = modsEmit s.modifications := by
        rw [jlookup_append, hmpEq]
        cases modsEmit s.modifications <;> simp +decide [jlookup]
      have hbaseNone : ∀ k, k ≠ "id" → k ≠ "sequence" → k ≠ "modifications" →
          jlookup ([("id", s.id), ("sequence", s.sequence)] ++ mp) k = Option.none := by
        intro k h1 h2 h3
        have h1' : ¬ ("id" = k) := fun he => h1 he.symm
        have h2' : ¬ ("sequence" = k) := fun he => h2 he.symm
        have h3' : ¬ ("modifications" = k) := fun he => h3 he.symm
        rw [jlookup_append, hmpEq]
        cases modsEmit s.modifications <;> simp [jlookup, h1', h2', h3']
      refine ⟨?_, ?_, ?_, ?_, ?_, ?_, ?_, ?_⟩
      · rw [jlookup_appendIfNotNull_ne _ _ (by decide),
          jlookup_appendIfNotNull_ne _ _ (by decide),
          jlookup_appendIfNotNull_ne _ _ (by decide),
          jlookup_appendIfNotNull_ne _ _ (by decide),
          jlookup_appendIfNotNull_ne _ _ (by decide), jlookup_append]
        simp [jlookup]
      · rw [jlookup_appendIfNotNull_ne _ _ (by decide),
          jlookup_appendIfNotNull_ne _ _ (by decide),
          jlookup_appendIfNotNull_ne _ _ (by decide),
          jlookup_appendIfNotNull_ne _ _ (by decide),
          jlookup_appendIfNotNull_ne _ _ (by decide), jlookup_append]
        simp +decide [jlookup]
      · rw [jlookup_appendIfNotNull_ne _ _ (by decide),
          jlookup_appendIfNotNull_ne _ _ (by decide),
          jlookup_appendIfNotNull_ne _ _ (by decide),
          jlookup_appendIfNotNull_ne _ _ (by decide),
          jlookup_appendIfNotNull_ne _ _ (by decide)]
        exact hbaseMods
      · rw [jlookup_appendIfNotNull_ne _ _ (by decide),
          jlookup_appendIfNotNull_ne _ _ (by decide),
          jlookup_appendIfNotNull_ne _ _ (by decide),
          jlookup_appendIfNotNull_ne _ _ (by decide),
          jlookup_appendIfNotNull_self _ _ _ (hbaseNone _ (by decide) (by decide) (by decide))]
      · rw [jlookup_appendIfNotNull_ne _ _ (by decide),
          jlookup_appendIfNotNull_ne _ _ (by decide),
          jlookup_appendIfNotNull_ne _ _ (by decide),
          jlookup_appendIfNotNull_self _ _ _ (by
            rw [jlookup_appendIfNotNull_ne _ _ (by decide)]
            exact hbaseNone _ (by decide) (by decide) (by decide))]
      · rw [jlookup_appendIfNotNull_ne _ _ (by decide),
          jlookup_appendIfNotNull_ne _ _ (by decide),
          jlookup_appendIfNotNull_self _ _ _ (by
            rw [jlookup_appendIfNotNull_ne _ _ (by decide),
              jlookup_appendIfNotNull_ne _ _ (by decide)]
            exact hbaseNone _ (by decide) (by decide) (by decide))]
      · rw [jlookup_appendIfNotNull_ne _ _ (by decide),
          jlookup_appendIfNotNull_self _ _ _ (by
            rw [jlookup_appendIfNotNull_ne _ _ (by decide),
              jlookup_appendIfNotNull_ne _ _ (by decide),
              jlookup_appendIfNotNull_ne _ _ (by decide)]
            exact hbaseNone _ (by decide) (by decide) (by decide))]
      · rw [jlookup_appendIfNotNull_self _ _ _ (by
          rw [jlookup_appendIfNotNull_ne _ _ (by decide),
            jlookup_appendIfNotNull_ne _ _ (by decide),
            jlookup_appendIfNotNull_ne _ _ (by decide),
            jlookup_appendIfNotNull_ne _ _ (by decide)]
          exact hbaseNone _ (by decide) (by decide) (by decide))]

theorem validateSequenceChars_str (ty : SeqType) (s : String) :
    validateSequenceChars ty (.str s) =
      (if ((pyUpper s).data.all fun c => ty.alphabet.contains c) then Except.ok ()
       else Except.error (invalidAlphabetMsg ty)) := rfl

theorem mkSequence_basic_eq (ty : SeqType) (i sq : String)
    (hi : i ≠ "") (hs : sq ≠ "") :
    mkSequence ty (.str i) (.str sq) .null .null .null .null .null .null =
      (if ((pyUpper sq).data.all fun c => ty.alphabet.contains c) then
        Except.ok (Sequence.mk (.str i) (.str sq) ty ModsField.none
          .null .null .null .null .null)
      else Except.error (invalidAlphabetMsg ty)) := by
  have h1 : ¬ ((!((JValue.str i).truthy && (JValue.str sq).truthy)) = true) := by
    simp [JValue.truthy, hi, hs]
  have hvf : validateFields ty (.str i) (.str sq) .null .null .null .null
      = validateSequenceChars ty (.str sq) := by
    unfold validateFields
    rw [if_neg h1,
      if_neg (by decide : ¬ ((JValue.null.truthy && JValue.null.truthy) = true)),
      if_neg (by decide : ¬ ((JValue.null.truthy && JValue.null.truthy) = true))]
  unfold mkSequence
  rw [hvf, validateSequenceChars_str]
  by_cases hc : ((pyUpper sq).data.all fun c => ty.alphabet.contains c) = true
  · rw [if_pos hc, if_pos hc]; rfl
  · rw [if_neg hc, if_neg hc]

theorem mkSequence_basic_iff (ty : SeqType) (i sq : String)
    (hi : i ≠ "") (hs : sq ≠ "") :
    exceptOk (mkSequence ty (.str i) (.str sq) .null .null .null .null .null .null) = true
      ↔ sq.data.all (fun c => ty.alphabet.contains c.toUpper) = true := by
  have hall : ((pyUpper sq).data.all fun c => ty.alphabet.contains c)
      = sq.data.all (fun c => ty.alphabet.contains c.toUpper) := by
    rw [pyUpper_data, List.all_map]
    rfl
  rw [mkSequence_basic_eq ty i sq hi hs, hall]
  by_cases hc : sq.data.all (fun c => ty.alphabet.contains c.toUpper) = true
  · rw [if_pos hc]
    simpa [exceptOk] using hc
  · rw [if_neg hc]
    simpa [exceptOk] using hc

/-! ### Claim theorems -/

/-- C3: with non-empty id and sequence strings and no optional fields,
ProteinSequence construction succeeds iff every character, uppercased,
is one of the 20 amino-acid codes; DNASequence iff every uppercased
character is in ATCG; RNASequence iff every uppercased character is in
AUCG. -/
theorem c3_alphabet_iff (i sq : String) (hi : i ≠ "") (hs : sq ≠ "") :
    (exceptOk (mkSequence SeqType.protein (.str i) (.str sq) .null .null .null .null .null .null) = true
       ↔ sq.data.all (fun c => validAminoAcids.contains c.toUpper) = true) ∧
    (exceptOk (mkSequence SeqType.dna (.str i) (.str sq) .null .null .null .null .null .null) = true
       ↔ sq.data.all (fun c => validDnaNucleotides.contains c.toUpper) = true) ∧
    (exceptOk (mkSequence SeqType.rna (.str i) (.str sq) .null .null .null .null .null .null) = true
       ↔ sq.data.all (fun c => validRnaNucleotides.contains c.toUpper) = true) :=
  ⟨mkSequence_basic_iff SeqType.protein i sq hi hs,
   mkSequence_basic_iff SeqType.dna i sq hi hs,
   mkSequence_basic_iff SeqType.rna i sq hi hs⟩

/-- Witness for C3 at id "d1", sequence "atCG" (mixed case, valid DNA). -/
theorem c3_alphabet_iff_w :
    exceptOk (mkSequence SeqType.dna (.str "d1") (.str "atCG") .null .null .null .null .null .null) = true :=
  ((c3_alphabet_iff "d1" "atCG" (by decide) (by decide)).2.1).mpr (by decide)

/-- C4 counterexample: both unpairedMsa and unpairedMsaPath are supplied
(non-None), but the supplied unpairedMsa is the empty string, which is
falsy, so the truthiness-based exclusivity check does not fire and
construction succeeds — refuting "always fails". -/
theorem c4_counterexample :
    exceptOk (mkSequence SeqType.protein (.str "id1") (.str "A") .null
      (.str "") (.str "msas/a.a3m") .null .null .null) = true := by decide

/-- C4 amended: supplying both members of an MSA inline/path pair with
truthy (non-empty) values makes construction fail, whatever the other
fields are. -/
theorem c4_msa_exclusive_amended (ty : SeqType) (i sq mods uM uMP pM pMP t : JValue)
    (h : (uM.truthy = true ∧ uMP.truthy = true) ∨ (pM.truthy = true ∧ pMP.truthy = true)) :
    exceptOk (mkSequence ty i sq mods uM uMP pM pMP t) = false := by
  rcases h with ⟨h1, h2⟩ | ⟨h1, h2⟩
  · by_cases h0 : !(i.truthy && sq.truthy)
    · simp [mkSequence, validateFields, h0, exceptOk]
    · simp [mkSequence, validateFields, h0, h1, h2, exceptOk]
  · by_cases h0 : !(i.truthy && sq.truthy)
    · simp [mkSequence, validateFields, h0, exceptOk]
    · by_cases h3 : uM.truthy && uMP.truthy
      · simp [mkSequence, validateFields, h0, h3, exceptOk]
      · simp [mkSequence, validateFields, h0, h3, h1, h2, exceptOk]

/-- Witness for the amended C4 with both paired fields non-empty. -/
theorem c4_msa_exclusive_amended_w :
    exceptOk (mkSequence SeqType.protein (.str "i") (.str "A") .null .null .null
      (.str "m") (.str "p") .null) = false :=
  c4_msa_exclusive_amended SeqType.protein (.str "i") (.str "A") .null .null .null
    (.str "m") (.str "p") .null (Or.inr ⟨by decide, by decide⟩)

/-- C6: a successfully constructed variant stores the caller's sequence
string exactly (validation is case-insensitive, the value is never
case-normalized), and to_dict serializes that exact string. -/
theorem c6_sequence_not_normalized (ty : SeqType) (rawSeq : String)
    (i mods uM uMP pM pMP t : JValue) (s : Sequence)
    (h : mkSequence ty i (.str rawSeq) mods uM uMP pM pMP t = Except.ok s) :
    s.sequence = .str rawSeq ∧
    ∀ d, Sequence.to_dict s = Except.ok d →
      ∃ fl, d = JValue.obj [(ty.tag, JValue.obj fl)] ∧
        jlookup fl "sequence" = some (.str rawSeq) := by
  obtain ⟨-, -, hstruct⟩ := mkSequence_ok_inv h
  have hseq : s.sequence = .str rawSeq := by rw [hstruct]
  have hty : s.type = ty := by rw [hstruct]
  refine ⟨hseq, ?_⟩
  intro d hd
  unfold Sequence.to_dict at hd
  cases hf : seqDictFields s with
  | error e => rw [hf] at hd; exact absurd hd (by simp)
  | ok fl =>
      rw [hf] at hd
      injection hd with hd2
      obtain ⟨-, hseqLookup, -⟩ := seqDictFields_lookups s fl hf
      exact ⟨fl, by rw [← hd2, hty], by rw [hseqLookup, hseq]⟩

theorem optEmit_isSome (v : JValue) : (optEmit v).isSome = true ↔ ¬ v = JValue.null := by
  unfold optEmit
  by_cases hn : v.isNull = true
  · rw [if_pos hn]
    simp [(isNull_iff v).mp hn]
  · rw [if_neg hn]
    simp only [Option.isSome_some, true_iff]
    exact fun he => hn ((isNull_iff v).mpr he)

theorem modsEmit_isSome (m : ModsField) :
    (modsEmit m).isSome = true ↔ (∃ l, m = ModsField.mods l ∧ l ≠ []) := by
  cases m with
  | none => simp [modsEmit]
  | mods l =>
      cases l with
      | nil => simp [modsEmit]
      | cons a as => simp [modsEmit]
  | other v => simp [modsEmit]

/-- C5 counterexample: a protein sequence successfully constructed with
unpairedMsa equal to the empty string serializes with an "unpairedMsa"
key whose corresponding field is empty, refuting "never contains a key
whose corresponding field is absent or empty". -/
theorem c5_counterexample :
    (match mkSequence SeqType.protein (.str "id1") (.str "A") .null
        (.str "") .null .null .null .null with
     | Except.ok s => Sequence.to_dict s
     | Except.error e => Except.error e)
      = Except.ok (JValue.obj [("protein", JValue.obj
          [("id", JValue.str "id1"), ("sequence", JValue.str "A"),
           ("unpairedMsa", JValue.str "")])]) := rfl

/-- C5 amended: to_dict of a successfully constructed variant (when it
succeeds) has exactly one top-level key, the type tag; the nested
mapping always binds id and sequence, binds modifications exactly when
the field is a non-empty list, and binds each pass-through field exactly
when the field is not None — an empty-string (or otherwise falsy)
non-None value is still emitted. -/
theorem c5_to_dict_keys_amended (ty : SeqType) (i sq mods uM uMP pM pMP t : JValue)
    (s : Sequence) (d : JValue)
    (h : mkSequence ty i sq mods uM uMP pM pMP t = Except.ok s)
    (hd : Sequence.to_dict s = Except.ok d) :
    ∃ fl, d = JValue.obj [(ty.tag, JValue.obj fl)] ∧
      jlookup fl "id" = some s.id ∧
      jlookup fl "sequence" = some s.sequence ∧
      ((jlookup fl "modifications").isSome = true ↔
        (∃ l, s.modifications = ModsField.mods l ∧ l ≠ [])) ∧
      ((jlookup fl "unpairedMsa").isSome = true ↔ ¬ s.unpairedMsa = JValue.null) ∧
      ((jlookup fl "unpairedMsaPath").isSome = true ↔ ¬ s.unpairedMsaPath = JValue.null) ∧
      ((jlookup fl "pairedMsa").isSome = true ↔ ¬ s.pairedMsa = JValue.null) ∧
      ((jlookup fl "pairedMsaPath").isSome = true ↔ ¬ s.pairedMsaPath = JValue.null) ∧
      ((jlookup fl "templates").isSome = true ↔ ¬ s.templates = JValue.null) := by
  obtain ⟨-, -, hstruct⟩ := mkSequence_ok_inv h
  have hty : s.type = ty := by rw [hstruct]
  unfold Sequence.to_dict at hd
  cases hf : seqDictFields s with
  | error e => rw [hf] at hd; exact absurd hd (by simp)
  | ok fl =>
      rw [hf] at hd
      injection hd with hd2
      obtain ⟨l1, l2, l3, l4, l5, l6, l7, l8⟩ := seqDictFields_lookups s fl hf
      refine ⟨fl, by rw [← hd2, hty], l1, l2, ?_, ?_, ?_, ?_, ?_, ?_⟩
      · rw [l3]; exact modsEmit_isSome s.modifications
      · rw [l4]; exact optEmit_isSome s.unpairedMsa
      · rw [l5]; exact optEmit_isSome s.unpairedMsaPath
      · rw [l6]; exact optEmit_isSome s.pairedMsa
      · rw [l7]; exact optEmit_isSome s.pairedMsaPath
      · rw [l8]; exact optEmit_isSome s.templates

/-- Witness for the amended C5 at a protein sequence with a non-empty
unpairedMsa. -/
theorem c5_to_dict_keys_amended_w :
    ∃ fl, JValue.obj [("protein", JValue.obj [("id", JValue.str "id1"),
        ("sequence", JValue.str "A"), ("unpairedMsa", JValue.str "m")])]
      = JValue.obj [(SeqType.protein.tag, JValue.obj fl)] ∧
      jlookup fl "id" = some (JValue.str "id1") := by
  obtain ⟨fl, hfl, h1, -⟩ :=
    c5_to_dict_keys_amended SeqType.protein (.str "id1") (.str "A") .null
      (.str "m") .null .null .null .null
      (Sequence.mk (.str "id1") (.str "A") SeqType.protein ModsField.none
        (.str "m") .null .null .null .null)
      (JValue.obj [("protein", JValue.obj [("id", JValue.str "id1"),
        ("sequence", JValue.str "A"), ("unpairedMsa", JValue.str "m")])]) rfl rfl
  exact ⟨fl, hfl, h1⟩

/-- Witness for C6: lowercase protein sequence stored and serialized
verbatim. -/
theorem c6_sequence_not_normalized_w :
    (Sequence.mk (.str "p1") (.str "acd") SeqType.protein ModsField.none
        .null .null .null .null .null).sequence = .str "acd" :=
  (c6_sequence_not_normalized SeqType.protein "acd" (.str "p1")
    .null .null .null .null .null .null
    (Sequence.mk (.str "p1") (.str "acd") SeqType.protein ModsField.none
      .null .null .null .null .null) rfl).1

theorem loadFastaGo_ok (k : Nat) (pairs : List (String × String))
    (out : List Sequence) (h : loadFastaGo k pairs = Except.ok out) :
    out.length = pairs.length ∧
    ∀ i (hp : i < pairs.length) (ho : i < out.length),
      fastaPairSeq (k + i) (pairs.get ⟨i, hp⟩) = Except.ok (out.get ⟨i, ho⟩) := by
  induction pairs generalizing k out with
  | nil =>
      simp only [loadFastaGo] at h
      injection h with h2
      subst h2
      exact ⟨rfl, fun i hp ho => absurd hp (Nat.not_lt_zero i)⟩
  | cons p rest ih =>
      simp only [loadFastaGo] at h
      cases hf : fastaPairSeq k p with
      | error e => rw [hf] at h; exact absurd h (by simp)
      | ok s =>
          rw [hf] at h
          cases hrest : loadFastaGo (k + 1) rest with
          | error e => rw [hrest] at h; exact absurd h (by simp)
          | ok others =>
              rw [hrest] at h
              injection h with h2
              subst h2
              obtain ⟨hlen, hpt⟩ := ih (k + 1) others hrest
              refine ⟨by simp [hlen], ?_⟩
              intro i hp ho
              cases i with
              | zero => simpa using hf
              | succ j =>
                  have hp' : j < rest.length := by simpa using hp
                  have ho' : j < others.length := by simpa [hlen] using ho
                  have hj := hpt j hp' ho'
                  have harith : k + 1 + j = k + (j + 1) := by omega
                  rw [harith] at hj
                  simpa using hj

theorem loadFastaGo_err (k : Nat) (pairs : List (String × String)) :
    ∀ i (hp : i < pairs.length),
      exceptOk (fastaPairSeq (k + i) (pairs.get ⟨i, hp⟩)) = false →
      exceptOk (loadFastaGo k pairs) = false := by
  induction pairs generalizing k with
  | nil => intro i hp; exact absurd hp (Nat.not_lt_zero i)
  | cons p rest ih =>
      intro i hp hfail
      simp only [loadFastaGo]
      cases i with
      | zero =>
          have hf' : exceptOk (fastaPairSeq k p) = false := by simpa using hfail
          cases hf : fastaPairSeq k p with
          | error e => rfl
          | ok s => rw [hf] at hf'; exact absurd hf' (by simp [exceptOk])
      | succ j =>
          cases hf : fastaPairSeq k p with
          | error e => rfl
          | ok s =>
              have hp' : j < rest.length := by simpa using hp
              have hfail' : exceptOk (fastaPairSeq (k + 1 + j) (rest.get ⟨j, hp'⟩)) = false := by
                have harith : k + 1 + j = k + (j + 1) := by omega
                rw [harith]
                simpa using hfail
              have hrec := ih (k + 1) j hp' hfail'
              cases hrest : loadFastaGo (k + 1) rest with
              | error e => rfl
              | ok others => rw [hrest] at hrec; exact absurd hrec (by simp [exceptOk])

/-- C9: the conversion bridge yields one protein variant per input pair,
in order; an empty identifier at 0-based position i becomes the
placeholder seq_<i+1>, any other identifier is preserved; the raw
sequence string is stored unchanged; and a construction failure on any
pair makes the whole conversion fail. -/
theorem c9_fasta_bridge :
    (∀ pairs out, load_sequences_from_fasta pairs = Except.ok out →
      out.length = pairs.length ∧
      ∀ i (hp : i < pairs.length) (ho : i < out.length),
        (out.get ⟨i, ho⟩).type = SeqType.protein ∧
        (out.get ⟨i, ho⟩).sequence = .str (pairs.get ⟨i, hp⟩).2 ∧
        (out.get ⟨i, ho⟩).id =
          .str (if (pairs.get ⟨i, hp⟩).1 = "" then "seq_" ++ toString (i + 1)
                else (pairs.get ⟨i, hp⟩).1)) ∧
    (∀ pairs i (hp : i < pairs.length),
      exceptOk (fastaPairSeq i (pairs.get ⟨i, hp⟩)) = false →
      exceptOk (load_sequences_from_fasta pairs) = false) := by
  constructor
  · intro pairs out h
    obtain ⟨hlen, hpt⟩ := loadFastaGo_ok 0 pairs out h
    refine ⟨hlen, ?_⟩
    intro i hp ho
    have hi := hpt i hp ho
    rw [Nat.zero_add] at hi
    obtain ⟨-, -, hstruct⟩ := mkSequence_ok_inv hi
    rw [hstruct]
    exact ⟨rfl, rfl, rfl⟩
  · intro pairs i hp hfail
    exact loadFastaGo_err 0 pairs i hp (by simpa using hfail)

/-- Witness for C9: two pairs, the second with an empty identifier,
convert to two protein variants with ids preserved resp. replaced by
the placeholder seq_2. -/
theorem c9_fasta_bridge_w :
    ([Sequence.mk (.str "s1") (.str "ACD") SeqType.protein ModsField.none
        .null .null .null .null .null,
      Sequence.mk (.str "seq_2") (.str "MK") SeqType.protein ModsField.none
        .null .null .null .null .null] : List Sequence).length
      = ([("s1", "ACD"), ("", "MK")] : List (String × String)).length :=
  (c9_fasta_bridge.1 [("s1", "ACD"), ("", "MK")] _ rfl).1

theorem parseEntryPairs_length (kvs : List (String × JValue)) (l : List Sequence)
    (h : parseEntryPairs kvs = Except.ok l) : l.length = kvs.length := by
  induction kvs generalizing l with
  | nil =>
      simp only [parseEntryPairs] at h
      injection h with h2
      subst h2
      rfl
  | cons kv rest ih =>
      obtain ⟨k, v⟩ := kv
      simp only [parseEntryPairs] at h
      cases hb : buildSeqFromPair k v with
      | error e => rw [hb] at h; exact absurd h (by simp)
      | ok s =>
          rw [hb] at h
          cases hr : parseEntryPairs rest with
          | error e => rw [hr] at h; exact absurd h (by simp)
          | ok others =>
              rw [hr] at h
              injection h with h2
              subst h2
              simp [ih others hr]

/-- C10: parsing iterates over every key-value pair of each sequences
entry, so a successful parse yields exactly as many sequences as there
are type keys across all entries (an empty-mapping entry contributes
none). -/
theorem c10_entry_key_count (entries : List JValue) (seqs : List Sequence)
    (h : parseSequencesData entries = Except.ok seqs) :
    seqs.length = (entries.map entryKeyCount).sum := by
  induction entries generalizing seqs with
  | nil =>
      simp only [parseSequencesData] at h
      injection h with h2
      subst h2
      rfl
  | cons entry rest ih =>
      cases entry with
      | obj kvs =>
          simp only [parseSequencesData] at h
          cases hp : parseEntryPairs kvs with
          | error e => rw [hp] at h; exact absurd h (by simp)
          | ok here =>
              rw [hp] at h
              cases hr : parseSequencesData rest with
              | error e => rw [hr] at h; exact absurd h (by simp)
              | ok there =>
                  rw [hr] at h
                  injection h with h2
                  subst h2
                  simp [entryKeyCount, parseEntryPairs_length kvs here hp, ih there hr]
      | null => exact absurd h (by simp [parseSequencesData])
      | bool b => exact absurd h (by simp [parseSequencesData])
      | int n => exact absurd h (by simp [parseSequencesData])
      | str s2 => exact absurd h (by simp [parseSequencesData])
      | arr xs => exact absurd h (by simp [parseSequencesData])

/-- Witness for C10: an entry holding both a protein and a dna key plus
an empty-mapping entry parse to exactly two sequences. -/
theorem c10_entry_key_count_w :
    ([Sequence.mk (.str "a") (.str "A") SeqType.protein ModsField.none
        .null .null .null .null .null,
      Sequence.mk (.str "d") (.str "AT") SeqType.dna ModsField.none
        .null .null .null .null .null] : List Sequence).length
      = ([JValue.obj [("protein", JValue.obj [("id", .str "a"), ("sequence", .str "A")]),
                      ("dna", JValue.obj [("id", .str "d"), ("sequence", .str "AT")])],
          JValue.obj []].map entryKeyCount).sum :=
  c10_entry_key_count _ _ rfl

theorem mkAfJobConfig_ok_inv {name seeds : JValue} {seqs : List Sequence}
    {d : DialectInput} {v : VersionInput} {bap ccd : JValue} {c : AfJobConfig}
    (h : mkAfJobConfig name seeds seqs d v bap ccd = Except.ok c) :
    name.truthy = true ∧ seeds.truthy = true ∧ (pyLen seeds).isSome = true ∧
    seqs.isEmpty = false ∧
    coerceVersion v = Except.ok c.version ∧ coerceDialect d = Except.ok c.dialect ∧
    c = AfJobConfig.mk name seeds seqs c.dialect c.version bap ccd := by
  unfold mkAfJobConfig at h
  by_cases h1 : name.truthy = true
  case neg =>
      rw [if_pos (by simpa using h1)] at h
      exact absurd h (by simp)
  rw [if_neg (by simp [h1])] at h
  by_cases h2 : seeds.truthy = true
  case neg =>
      rw [if_pos (by simpa using h2)] at h
      exact absurd h (by simp)
  rw [if_neg (by simp [h2])] at h
  cases hlen : pyLen seeds with
  | none => simp only [hlen] at h; exact absurd h (by simp)
  | some n =>
      simp only [hlen] at h
      by_cases h3 : n < 1
      case pos => rw [if_pos h3] at h; exact absurd h (by simp)
      rw [if_neg h3] at h
      by_cases h4 : seqs.isEmpty = true
      case pos => rw [if_pos h4] at h; exact absurd h (by simp)
      rw [if_neg h4] at h
      cases hv : coerceVersion v with
      | error e => simp only [hv] at h; exact absurd h (by simp)
      | ok v2 =>
          simp only [hv] at h
          cases hd : coerceDialect d with
          | error e => simp only [hd] at h; exact absurd h (by simp)
          | ok d2 =>
              simp only [hd] at h
              injection h with h5
              subst h5
              exact ⟨h1, h2, by simp, by simpa using h4, rfl, rfl, rfl⟩

theorem from_dict_obj_red (kvs : List (String × JValue)) (entries : List JValue)
    (seqs : List Sequence)
    (hseq : jget kvs "sequences" (.arr []) = .arr entries)
    (hparse : parseSequencesData entries = Except.ok seqs) :
    AfJobConfig.from_dict (.obj kvs) =
      mkAfJobConfig (jget kvs "name" .null) (jget kvs "modelSeeds" (.arr []))
        seqs (DialectInput.val (jget kvs "dialect" .null))
        (match jlookup kvs "version" with
         | some j => VersionInput.val j
         | Option.none => VersionInput.mem Version.v2)
        (jget kvs "bondedAtomPairs" .null) (jget kvs "userCCD" .null) := by
  simp only [AfJobConfig.from_dict, hseq, hparse]

theorem from_dict_ok_shape {kvs : List (String × JValue)} {c : AfJobConfig}
    (h : AfJobConfig.from_dict (.obj kvs) = Except.ok c) :
    ∃ entries seqs, jget kvs "sequences" (.arr []) = .arr entries ∧
      parseSequencesData entries = Except.ok seqs ∧
      mkAfJobConfig (jget kvs "name" .null) (jget kvs "modelSeeds" (.arr []))
        seqs (DialectInput.val (jget kvs "dialect" .null))
        (match jlookup kvs "version" with
         | some j => VersionInput.val j
         | Option.none => VersionInput.mem Version.v2)
        (jget kvs "bondedAtomPairs" .null) (jget kvs "userCCD" .null)
        = Except.ok c := by
  simp only [AfJobConfig.from_dict] at h
  cases hseq : jget kvs "sequences" (.arr []) with
  | arr entries =>
      simp only [hseq] at h
      cases hp : parseSequencesData entries with
      | error e => simp only [hp] at h; exact absurd h (by simp)
      | ok seqs =>
          simp only [hp] at h
          exact ⟨entries, seqs, rfl, hp, h⟩
  | null => simp only [hseq] at h; exact absurd h (by simp)
  | bool b => simp only [hseq] at h; exact absurd h (by simp)
  | int n => simp only [hseq] at h; exact absurd h (by simp)
  | str s2 => simp only [hseq] at h; exact absurd h (by simp)
  | obj kvs2 => simp only [hseq] at h; exact absurd h (by simp)

/-- C7 counterexample: a document with no dialect key parses
successfully (the parsed dialect is the unvalidated None), refuting the
claim that a missing dialect trips the required-field validation. -/
theorem c7_counterexample :
    exceptOk (AfJobConfig.from_dict c7doc) = true ∧
    cfgDialectOf (AfJobConfig.from_dict c7doc)
      = some (DialectField.raw JValue.null) := ⟨rfl, rfl⟩

/-- C7 amended: a missing version key defaults the parsed version to the
V2 member; a missing name, and then a missing modelSeeds, fail with the
same required-field messages direct construction raises; but a missing
dialect does not fail — the configuration is parsed with the
unvalidated None stored as its dialect. -/
theorem c7_defaults_amended :
    (∀ kvs c, jlookup kvs "version" = Option.none →
      AfJobConfig.from_dict (.obj kvs) = Except.ok c →
      c.version = VersionField.mem Version.v2) ∧
    (∀ kvs entries seqs, jlookup kvs "name" = Option.none →
      jget kvs "sequences" (.arr []) = .arr entries →
      parseSequencesData entries = Except.ok seqs →
      AfJobConfig.from_dict (.obj kvs) = Except.error "Job name is required") ∧
    (∀ kvs entries seqs, jlookup kvs "modelSeeds" = Option.none →
      (jget kvs "name" .null).truthy = true →
      jget kvs "sequences" (.arr []) = .arr entries →
      parseSequencesData entries = Except.ok seqs →
      AfJobConfig.from_dict (.obj kvs)
        = Except.error "At least one model seed is required") ∧
    (∀ kvs c, jlookup kvs "dialect" = Option.none →
      AfJobConfig.from_dict (.obj kvs) = Except.ok c →
      c.dialect = DialectField.raw JValue.null) := by
  refine ⟨?_, ?_, ?_, ?_⟩
  · intro kvs c hver h
    obtain ⟨entries, seqs, hseq, hp, hmk⟩ := from_dict_ok_shape h
    rw [hver] at hmk
    obtain ⟨-, -, -, -, hcv, -, -⟩ := mkAfJobConfig_ok_inv hmk
    have hv2 : Except.ok (VersionField.mem Version.v2) = Except.ok c.version := hcv
    injection hv2 with h2
    exact h2.symm
  · intro kvs entries seqs hname hseq hp
    rw [from_dict_obj_red kvs entries seqs hseq hp]
    have hn : jget kvs "name" .null = .null := by unfold jget; rw [hname]
    rw [hn]
    rfl
  · intro kvs entries seqs hms hname hseq hp
    rw [from_dict_obj_red kvs entries seqs hseq hp]
    have hm : jget kvs "modelSeeds" (.arr []) = .arr [] := by unfold jget; rw [hms]
    rw [hm]
    unfold mkAfJobConfig
    rw [if_neg (by simp [hname])]
    rfl
  · intro kvs c hdia h
    obtain ⟨entries, seqs, hseq, hp, hmk⟩ := from_dict_ok_shape h
    obtain ⟨-, -, -, -, -, hcd, -⟩ := mkAfJobConfig_ok_inv hmk
    have hd : jget kvs "dialect" .null = .null := by unfold jget; rw [hdia]
    rw [hd] at hcd
    have hd2 : Except.ok (DialectField.raw JValue.null) = Except.ok c.dialect := hcd
    injection hd2 with h2
    exact h2.symm

/-- Witness for the amended C7: each of the four defaulting behaviors at
a concrete document. -/
theorem c7_defaults_amended_w :
    (AfJobConfig.mk (.str "job1") (.arr [.int 1])
        [Sequence.mk (.str "a") (.str "A") SeqType.protein ModsField.none
          .null .null .null .null .null]
        (DialectField.raw JValue.null) (VersionField.mem Version.v2)
        .null .null).version = VersionField.mem Version.v2 ∧
    AfJobConfig.from_dict (.obj [("modelSeeds", .arr [.int 1]),
        ("sequences", .arr [protEntry])])
      = Except.error "Job name is required" ∧
    AfJobConfig.from_dict (.obj [("name", .str "job1"),
        ("sequences", .arr [protEntry])])
      = Except.error "At least one model seed is required" ∧
    (AfJobConfig.mk (.str "job1") (.arr [.int 1])
        [Sequence.mk (.str "a") (.str "A") SeqType.protein ModsField.none
          .null .null .null .null .null]
        (DialectField.raw JValue.null) (VersionField.mem Version.v2)
        .null .null).dialect = DialectField.raw JValue.null :=
  ⟨c7_defaults_amended.1 [("name", .str "job1"), ("modelSeeds", .arr [.int 1]),
      ("sequences", .arr [protEntry])] _ rfl rfl,
   c7_defaults_amended.2.1 [("modelSeeds", .arr [.int 1]),
      ("sequences", .arr [protEntry])] [protEntry]
      [Sequence.mk (.str "a") (.str "A") SeqType.protein ModsField.none
        .null .null .null .null .null] rfl rfl rfl,
   c7_defaults_amended.2.2.1 [("name", .str "job1"),
      ("sequences", .arr [protEntry])] [protEntry]
      [Sequence.mk (.str "a") (.str "A") SeqType.protein ModsField.none
        .null .null .null .null .null] rfl rfl rfl rfl,
   c7_defaults_amended.2.2.2 [("name", .str "job1"), ("modelSeeds", .arr [.int 1]),
      ("sequences", .arr [protEntry])] _ rfl rfl⟩

/-- C8 counterexample: two documents whose failing protein entry sits at
index 0 resp. index 1 produce the identical error, so the error context
does not identify the sequence index. -/
theorem c8_counterexample :
    AfJobConfig.from_dict c8docA
      = Except.error "Failed to create protein sequence: Invalid protein sequence: contains invalid amino acids" ∧
    AfJobConfig.from_dict c8docB
      = Except.error "Failed to create protein sequence: Invalid protein sequence: contains invalid amino acids" :=
  ⟨rfl, rfl⟩

/-- C8 amended: a per-item construction failure aborts the parse with
the wrapped message "Failed to create <declared type> sequence: <cause>"
— the declared type and cause are identified, but the message is the
same wherever the failing entry sits, so the sequence index is not. -/
theorem c8_error_context_amended (pre rest : List JValue) (preSeqs : List Sequence)
    (tyKey : String) (content : JValue) (msg : String) (ty : SeqType)
    (hpre : parseSequencesData pre = Except.ok preSeqs)
    (hty : lookupSequenceClass tyKey = some ty)
    (hfail : buildSeqFromPair tyKey content = Except.error msg) :
    parseSequencesData (pre ++ JValue.obj [(tyKey, content)] :: rest)
      = Except.error msg ∧
    ∃ inner, msg = "Failed to create " ++ tyKey ++ " sequence: " ++ inner := by
  constructor
  · induction pre generalizing preSeqs with
    | nil =>
        simp only [List.nil_append, parseSequencesData, parseEntryPairs, hfail]
    | cons entry prest ih =>
        cases entry with
        | obj kvs =>
            simp only [parseSequencesData] at hpre
            cases hpe : parseEntryPairs kvs with
            | error e => rw [hpe] at hpre; exact absurd hpre (by simp)
            | ok here =>
                rw [hpe] at hpre
                cases hpp : parseSequencesData prest with
                | error e => rw [hpp] at hpre; exact absurd hpre (by simp)
                | ok there =>
                    simp only [List.cons_append, parseSequencesData, hpe]
                    rw [show prest.append (JValue.obj [(tyKey, content)] :: rest)
                          = prest ++ JValue.obj [(tyKey, content)] :: rest from rfl,
                      ih there hpp]
        | null => exact absurd hpre (by simp [parseSequencesData])
        | bool b => exact absurd hpre (by simp [parseSequencesData])
        | int n => exact absurd hpre (by simp [parseSequencesData])
        | str s2 => exact absurd hpre (by simp [parseSequencesData])
        | arr xs => exact absurd hpre (by simp [parseSequencesData])
  · unfold buildSeqFromPair at hfail
    rw [hty] at hfail
    cases hbc : buildSeqFromContent ty content with
    | ok s => simp only [hbc] at hfail; exact absurd hfail (by simp)
    | error e =>
        simp only [hbc] at hfail
        injection hfail with h2
        exact ⟨e, h2.symm⟩

/-- Witness for the amended C8: the failing protein entry after one
valid entry yields the wrapped, index-free message. -/
theorem c8_error_context_amended_w :
    parseSequencesData ([protEntry] ++
        JValue.obj [("protein", JValue.obj [("id", .str "x"), ("sequence", .str "AZ")])] :: [])
      = Except.error "Failed to create protein sequence: Invalid protein sequence: contains invalid amino acids" ∧
    ∃ inner, "Failed to create protein sequence: Invalid protein sequence: contains invalid amino acids"
      = "Failed to create " ++ "protein" ++ " sequence: " ++ inner :=
  c8_error_context_amended [protEntry] []
    [Sequence.mk (.str "a") (.str "A") SeqType.protein ModsField.none
      .null .null .null .null .null]
    "protein" (JValue.obj [("id", .str "x"), ("sequence", .str "AZ")])
    "Failed to create protein sequence: Invalid protein sequence: contains invalid amino acids"
    SeqType.protein rfl rfl rfl

theorem isEmpty_true_iff {α : Type} (l : List α) : l.isEmpty = true ↔ l = [] := by
  cases l <;> simp

theorem coerceVersion_fails (v : VersionInput) :
    exceptOk (coerceVersion v) = false ↔ versionInputFails v = true := by
  cases v with
  | mem m => simp [coerceVersion, versionInputFails, exceptOk]
  | val j =>
      cases j with
      | int n =>
          by_cases h1 : n = 1
          · simp [coerceVersion, versionInputFails, exceptOk, h1]
          · by_cases h2 : n = 2
            · simp [coerceVersion, versionInputFails, exceptOk, h1, h2]
            · simp [coerceVersion, versionInputFails, exceptOk, h1, h2]
      | bool b => cases b <;> simp [coerceVersion, versionInputFails, exceptOk]
      | null => simp [coerceVersion, versionInputFails, exceptOk]
      | str s => simp [coerceVersion, versionInputFails, exceptOk]
      | arr xs => simp [coerceVersion, versionInputFails, exceptOk]
      | obj kvs => simp [coerceVersion, versionInputFails, exceptOk]

theorem coerceDialect_fails (d : DialectInput) :
    exceptOk (coerceDialect d) = false ↔ dialectInputFails d = true := by
  cases d with
  | mem m => simp [coerceDialect, dialectInputFails, exceptOk]
  | val j =>
      cases j with
      | str s =>
          by_cases h1 : s = "alphafold3"
          · simp [coerceDialect, dialectInputFails, exceptOk, h1]
          · simp [coerceDialect, dialectInputFails, exceptOk, h1]
      | null => simp [coerceDialect, dialectInputFails, exceptOk]
      | bool b => simp [coerceDialect, dialectInputFails, exceptOk]
      | int n => simp [coerceDialect, dialectInputFails, exceptOk]
      | arr xs => simp [coerceDialect, dialectInputFails, exceptOk]
      | obj kvs => simp [coerceDialect, dialectInputFails, exceptOk]

theorem truthy_pyLen_ge {v : JValue} {n : Nat} (ht : v.truthy = true)
    (hl : pyLen v = some n) : 1 ≤ n := by
  cases v with
  | null => exact absurd hl (by simp [pyLen])
  | bool b => exact absurd hl (by simp [pyLen])
  | int m => exact absurd hl (by simp [pyLen])
  | str s =>
      obtain ⟨l⟩ := s
      cases l with
      | nil => exact absurd ht (by simp [JValue.truthy])
      | cons a as =>
          injection hl with h2
          have h3 : (String.mk (a :: as)).length = as.length + 1 := rfl
          omega
  | arr xs =>
      cases xs with
      | nil => exact absurd ht (by simp [JValue.truthy])
      | cons a as =>
          injection hl with h2
          have h3 : (a :: as).length = as.length + 1 := rfl
          omega
  | obj kvs =>
      cases kvs with
      | nil => exact absurd ht (by simp [JValue.truthy])
      | cons a as =>
          injection hl with h2
          have h3 : (a :: as).length = as.length + 1 := rfl
          omega

theorem mkAfJobConfig_red (name seeds : JValue) (seqs : List Sequence)
    (d : DialectInput) (v : VersionInput) (bap ccd : JValue)
    (h1 : name.truthy = true) (h2 : seeds.truthy = true)
    {n : Nat} (hlen : pyLen seeds = some n) (hn : ¬ n < 1) (h4 : seqs ≠ []) :
    mkAfJobConfig name seeds seqs d v bap ccd =
      (match coerceVersion v with
       | Except.error e => Except.error e
       | Except.ok v2 =>
           match coerceDialect d with
           | Except.error e => Except.error e
           | Except.ok d2 =>
               Except.ok (AfJobConfig.mk name seeds seqs d2 v2 bap ccd)) := by
  unfold mkAfJobConfig
  rw [if_neg (by simp [h1]), if_neg (by simp [h2])]
  simp only [hlen]
  rw [if_neg hn, if_neg (fun he => h4 ((isEmpty_true_iff seqs).mp he))]

theorem mkAfJobConfig_ok_iff (name seeds : JValue) (seqs : List Sequence)
    (d : DialectInput) (v : VersionInput) (bap ccd : JValue) :
    exceptOk (mkAfJobConfig name seeds seqs d v bap ccd) = true ↔
      (name.truthy = true ∧ seeds.truthy = true ∧ (pyLen seeds).isSome = true ∧
       seqs ≠ [] ∧ versionInputFails v = false ∧ dialectInputFails d = false) := by
  constructor
  · intro ht
    cases hmk : mkAfJobConfig name seeds seqs d v bap ccd with
    | error e => rw [hmk] at ht; exact absurd ht (by simp [exceptOk])
    | ok c =>
        obtain ⟨h1, h2, h3, h4, hcv, hcd, -⟩ := mkAfJobConfig_ok_inv hmk
        refine ⟨h1, h2, h3, ?_, ?_, ?_⟩
        · intro hnil; rw [hnil] at h4; simp at h4
        · cases hf : versionInputFails v
          · rfl
          · have hfe := (coerceVersion_fails v).mpr hf
            rw [hcv] at hfe
            exact absurd hfe (by simp [exceptOk])
        · cases hf : dialectInputFails d
          · rfl
          · have hfe := (coerceDialect_fails d).mpr hf
            rw [hcd] at hfe
            exact absurd hfe (by simp [exceptOk])
  · rintro ⟨h1, h2, h3, h4, h5, h6⟩
    cases hlen : pyLen seeds with
    | none => rw [hlen] at h3; exact absurd h3 (by simp)
    | some n =>
        have hn : ¬ n < 1 := by
          have := truthy_pyLen_ge h2 hlen
          omega
        rw [mkAfJobConfig_red name seeds seqs d v bap ccd h1 h2 hlen hn h4]
        cases hcv : coerceVersion v with
        | error e =>
            have : versionInputFails v = true := (coerceVersion_fails v).mp
              (by rw [hcv]; rfl)
            rw [this] at h5
            exact absurd h5 (by simp)
        | ok v2 =>
            cases hcd : coerceDialect d with
            | error e =>
                have : dialectInputFails d = true := (coerceDialect_fails d).mp
                  (by rw [hcd]; rfl)
                rw [this] at h6
                exact absurd h6 (by simp)
            | ok d2 => rfl

/-- C1 counterexample: a full document whose version value is the string
"not-a-version" — resolving to no Version member — still parses
successfully through from_dict's final constructor call, because
__post_init__ only validates int-instance versions; the unresolved raw
string is stored.  This refutes the "only if" half of the claim. -/
theorem c1_counterexample :
    exceptOk (AfJobConfig.from_dict c1doc) = true ∧
    cfgVersionOf (AfJobConfig.from_dict c1doc)
      = some (VersionField.raw (JValue.str "not-a-version")) := ⟨rfl, rfl⟩

/-- C1 amended: construction fails iff the name is falsy, or modelSeeds
is falsy or has no length, or sequences is empty, or the version value
is an int instance (Python int or bool) resolving to no Version member,
or the dialect value is a str instance resolving to no Dialect member.
Non-int versions and non-str dialects are stored without validation and
do not make construction fail. -/
theorem c1_construction_iff (name seeds : JValue) (seqs : List Sequence)
    (d : DialectInput) (v : VersionInput) (bap ccd : JValue) :
    exceptOk (mkAfJobConfig name seeds seqs d v bap ccd) = false ↔
      (name.truthy = false ∨ seeds.truthy = false ∨ pyLen seeds = Option.none ∨
       seqs = [] ∨ versionInputFails v = true ∨ dialectInputFails d = true) := by
  have hok := mkAfJobConfig_ok_iff name seeds seqs d v bap ccd
  constructor
  · intro hfalse
    by_contra hcon
    push_neg at hcon
    obtain ⟨n1, n2, n3, n4, n5, n6⟩ := hcon
    have ht : exceptOk (mkAfJobConfig name seeds seqs d v bap ccd) = true :=
      hok.mpr ⟨by simpa using n1, by simpa using n2,
        Option.ne_none_iff_isSome.mp n3, n4, by simpa using n5, by simpa using n6⟩
    rw [ht] at hfalse
    exact Bool.noConfusion hfalse
  · intro hdisj
    cases hres : exceptOk (mkAfJobConfig name seeds seqs d v bap ccd) with
    | false => rfl
    | true =>
        obtain ⟨c1, c2, c3, c4, c5, c6⟩ := hok.mp hres
        rcases hdisj with h | h | h | h | h | h
        · rw [c1] at h; exact Bool.noConfusion h
        · rw [c2] at h; exact Bool.noConfusion h
        · rw [h] at c3; exact absurd c3 (by simp)
        · exact absurd h c4
        · rw [c5] at h; exact Bool.noConfusion h
        · rw [c6] at h; exact Bool.noConfusion h

theorem jget_of_jlookup {kvs : List (String × JValue)} {k : String} {o : Option JValue}
    (h : jlookup kvs k = o) : jget kvs k .null = jvOfOpt o := by
  cases o with
  | none => simp [jget, h, jvOfOpt]
  | some v => simp [jget, h, jvOfOpt]

theorem jvOfOpt_optEmit (v : JValue) : jvOfOpt (optEmit v) = v := by
  unfold optEmit
  by_cases hn : v.isNull = true
  · rw [if_pos hn]
    simp [jvOfOpt, (isNull_iff v).mp hn]
  · rw [if_neg hn]
    rfl

theorem exceptOk_unit_ok {x : Except String Unit} (h : exceptOk x = true) :
    x = Except.ok () := by
  cases x with
  | ok u => cases u; rfl
  | error e => simp [exceptOk] at h

theorem mkModification_toDict (m : Modification) :
    mkModification (Modification.to_dict m) = Except.ok m := rfl

theorem mapE_mkMod_toDict (l : List Modification) :
    mapE mkModification (l.map Modification.to_dict) = Except.ok l := by
  induction l with
  | nil => rfl
  | cons m rest ih => simp only [List.map_cons, mapE, mkModification_toDict, ih]

theorem remkSequence {s : Sequence} (hwf : seqWF s = true)
    (hgood : goodMods s.modifications = true) :
    mkSequence s.type s.id s.sequence (jvOfOpt (modsEmit s.modifications))
      s.unpairedMsa s.unpairedMsaPath s.pairedMsa s.pairedMsaPath s.templates
      = Except.ok s := by
  have hv : validateFields s.type s.id s.sequence s.unpairedMsa s.unpairedMsaPath
      s.pairedMsa s.pairedMsaPath = Except.ok () := exceptOk_unit_ok hwf
  unfold mkSequence
  rw [hv]
  cases hm : s.modifications with
  | none =>
      show Except.ok (Sequence.mk s.id s.sequence s.type ModsField.none
        s.unpairedMsa s.unpairedMsaPath s.pairedMsa s.pairedMsaPath s.templates)
          = Except.ok s
      rw [← hm]
  | mods l =>
      rw [hm] at hgood
      have hl : l.isEmpty = false := by simpa [goodMods] using hgood
      have hje : jvOfOpt (modsEmit (ModsField.mods l))
          = JValue.arr (l.map Modification.to_dict) := by
        simp only [modsEmit]
        rw [hl]
        rfl
      rw [hje]
      have hpm : processModifications (JValue.arr (l.map Modification.to_dict))
          = Except.ok (ModsField.mods l) := by
        simp only [processModifications, mapE_mkMod_toDict]
      rw [hpm]
      show Except.ok (Sequence.mk s.id s.sequence s.type (ModsField.mods l)
        s.unpairedMsa s.unpairedMsaPath s.pairedMsa s.pairedMsaPath s.templates)
          = Except.ok s
      rw [← hm]
  | other v =>
      rw [hm] at hgood
      simp [goodMods] at hgood

theorem lookupSequenceClass_tag (ty : SeqType) :
    lookupSequenceClass ty.tag = some ty := by
  cases ty <;> rfl

theorem mkSequence_ok_wf {ty : SeqType} {i sq mods uM uMP pM pMP t : JValue}
    {s : Sequence} (h : mkSequence ty i sq mods uM uMP pM pMP t = Except.ok s) :
    seqWF s = true := by
  obtain ⟨hv, -, hstruct⟩ := mkSequence_ok_inv h
  rw [hstruct]
  simp [seqWF, hv, exceptOk]

theorem buildSeqFromPair_ok_wf {k : String} {v : JValue} {s : Sequence}
    (h : buildSeqFromPair k v = Except.ok s) : seqWF s = true := by
  unfold buildSeqFromPair at h
  cases hl : lookupSequenceClass k with
  | none => rw [hl] at h; exact absurd h (by simp)
  | some ty =>
      simp only [hl] at h
      cases hbc : buildSeqFromContent ty v with
      | error e => simp only [hbc] at h; exact absurd h (by simp)
      | ok s2 =>
          simp only [hbc] at h
          injection h with h2
          subst h2
          unfold buildSeqFromContent at hbc
          cases v with
          | obj kvs => exact mkSequence_ok_wf hbc
          | null => exact absurd hbc (by simp)
          | bool b => exact absurd hbc (by simp)
          | int n => exact absurd hbc (by simp)
          | str s3 => exact absurd hbc (by simp)
          | arr xs => exact absurd hbc (by simp)

theorem parseEntryPairs_wf {kvs : List (String × JValue)} {l : List Sequence}
    (h : parseEntryPairs kvs = Except.ok l) : ∀ s ∈ l, seqWF s = true := by
  induction kvs generalizing l with
  | nil =>
      simp only [parseEntryPairs] at h
      injection h with h2
      subst h2
      intro s hs
      simp at hs
  | cons kv rest ih =>
      obtain ⟨k, v⟩ := kv
      simp only [parseEntryPairs] at h
      cases hb : buildSeqFromPair k v with
      | error e => rw [hb] at h; exact absurd h (by simp)
      | ok s0 =>
          rw [hb] at h
          cases hr : parseEntryPairs rest with
          | error e => rw [hr] at h; exact absurd h (by simp)
          | ok others =>
              rw [hr] at h
              injection h with h2
              subst h2
              intro s hs
              rcases List.mem_cons.mp hs with h3 | h3
              · subst h3; exact buildSeqFromPair_ok_wf hb
              · exact ih hr s h3

theorem parseSequencesData_wf {entries : List JValue} {seqs : List Sequence}
    (h : parseSequencesData entries = Except.ok seqs) :
    ∀ s ∈ seqs, seqWF s = true := by
  induction entries generalizing seqs with
  | nil =>
      simp only [parseSequencesData] at h
      injection h with h2
      subst h2
      intro s hs
      simp at hs
  | cons entry rest ih =>
      cases entry with
      | obj kvs =>
          simp only [parseSequencesData] at h
          cases hp : parseEntryPairs kvs with
          | error e => rw [hp] at h; exact absurd h (by simp)
          | ok here =>
              rw [hp] at h
              cases hr : parseSequencesData rest with
              | error e => rw [hr] at h; exact absurd h (by simp)
              | ok there =>
                  rw [hr] at h
                  injection h with h2
                  subst h2
                  intro s hs
                  rcases List.mem_append.mp hs with h3 | h3
                  · exact parseEntryPairs_wf hp s h3
                  · exact ih hr s h3
      | null => exact absurd h (by simp [parseSequencesData])
      | bool b => exact absurd h (by simp [parseSequencesData])
      | int n => exact absurd h (by simp [parseSequencesData])
      | str s2 => exact absurd h (by simp [parseSequencesData])
      | arr xs => exact absurd h (by simp [parseSequencesData])

theorem parseEntry_of_toDict {s : Sequence} {dd : JValue}
    (hwf : seqWF s = true) (hgood : goodMods s.modifications = true)
    (hd : Sequence.to_dict s = Except.ok dd) :
    ∃ fl, dd = JValue.obj [(s.type.tag, JValue.obj fl)] ∧
      buildSeqFromPair s.type.tag (JValue.obj fl) = Except.ok s := by
  unfold Sequence.to_dict at hd
  cases hf : seqDictFields s with
  | error e => rw [hf] at hd; exact absurd hd (by simp)
  | ok fl =>
      rw [hf] at hd
      injection hd with hd2
      obtain ⟨l1, l2, l3, l4, l5, l6, l7, l8⟩ := seqDictFields_lookups s fl hf
      refine ⟨fl, hd2.symm, ?_⟩
      have hbc : buildSeqFromContent s.type (JValue.obj fl) = Except.ok s := by
        show mkSequence s.type (jget fl "id" JValue.null)
            (jget fl "sequence" JValue.null) (jget fl "modifications" JValue.null)
            (jget fl "unpairedMsa" JValue.null) (jget fl "unpairedMsaPath" JValue.null)
            (jget fl "pairedMsa" JValue.null) (jget fl "pairedMsaPath" JValue.null)
            (jget fl "templates" JValue.null) = Except.ok s
        rw [jget_of_jlookup l1, jget_of_jlookup l2, jget_of_jlookup l3,
          jget_of_jlookup l4, jget_of_jlookup l5, jget_of_jlookup l6,
          jget_of_jlookup l7, jget_of_jlookup l8, jvOfOpt_optEmit,
          jvOfOpt_optEmit, jvOfOpt_optEmit, jvOfOpt_optEmit, jvOfOpt_optEmit]
        exact remkSequence hwf hgood
      unfold buildSeqFromPair
      rw [lookupSequenceClass_tag]
      simp only [hbc]

theorem parse_of_mapE_toDict {seqs : List Sequence} {ds : List JValue}
    (hwf : ∀ s ∈ seqs, seqWF s = true)
    (hgood : ∀ s ∈ seqs, goodMods s.modifications = true)
    (hmap : mapE Sequence.to_dict seqs = Except.ok ds) :
    parseSequencesData ds = Except.ok seqs := by
  induction seqs generalizing ds with
  | nil =>
      simp only [mapE] at hmap
      injection hmap with h2
      subst h2
      rfl
  | cons s rest ih =>
      simp only [mapE] at hmap
      cases hd : Sequence.to_dict s with
      | error e => rw [hd] at hmap; exact absurd hmap (by simp)
      | ok dd =>
          rw [hd] at hmap
          cases hrest : mapE Sequence.to_dict rest with
          | error e => rw [hrest] at hmap; exact absurd hmap (by simp)
          | ok drest =>
              rw [hrest] at hmap
              injection hmap with h2
              subst h2
              obtain ⟨fl, hdd, hbuild⟩ :=
                parseEntry_of_toDict (hwf s (by simp)) (hgood s (by simp)) hd
              subst hdd
              have ihres := ih (fun x hx => hwf x (by simp [hx]))
                (fun x hx => hgood x (by simp [hx])) hrest
              simp only [parseSequencesData, parseEntryPairs, hbuild, ihres,
                List.singleton_append]

theorem afToDict_ok_inv {c : AfJobConfig} {d : JValue}
    (h : AfJobConfig.to_dict c = Except.ok d) :
    ∃ seqDicts dm vm, mapE Sequence.to_dict c.sequences = Except.ok seqDicts ∧
      c.dialect = DialectField.mem dm ∧ c.version = VersionField.mem vm ∧
      d = JValue.obj (cfgEmitFields c seqDicts dm vm) := by
  unfold AfJobConfig.to_dict at h
  cases hmap : mapE Sequence.to_dict c.sequences with
  | error e => rw [hmap] at h; exact absurd h (by simp)
  | ok seqDicts =>
      simp only [hmap] at h
      cases hdm : c.dialect with
      | raw j => simp only [hdm] at h; exact absurd h (by simp)
      | mem dm =>
          simp only [hdm] at h
          cases hvm : c.version with
          | raw j => simp only [hvm] at h; exact absurd h (by simp)
          | mem vm =>
              simp only [hvm] at h
              injection h with h2
              exact ⟨seqDicts, dm, vm, rfl, rfl, rfl, h2.symm⟩

theorem cfgEmitFields_lookups (c : AfJobConfig) (seqDicts : List JValue)
    (dm : Dialect) (vm : Version) :
    jlookup (cfgEmitFields c seqDicts dm vm) "name" = some c.name ∧
    jlookup (cfgEmitFields c seqDicts dm vm) "modelSeeds" = some c.modelSeeds ∧
    jlookup (cfgEmitFields c seqDicts dm vm) "sequences" = some (JValue.arr seqDicts) ∧
    jlookup (cfgEmitFields c seqDicts dm vm) "dialect" = some (JValue.str dm.value) ∧
    jlookup (cfgEmitFields c seqDicts dm vm) "version" = some (JValue.int vm.value) ∧
    jlookup (cfgEmitFields c seqDicts dm vm) "bondedAtomPairs" = optEmit c.bondedAtomPairs ∧
    jlookup (cfgEmitFields c seqDicts dm vm) "userCCD" = optEmit c.userCCD := by
  unfold cfgEmitFields
  refine ⟨?_, ?_, ?_, ?_, ?_, ?_, ?_⟩
  · rw [jlookup_appendIfNotNull_ne _ _ (by decide),
      jlookup_appendIfNotNull_ne _ _ (by decide)]
    simp +decide [jlookup]
  · rw [jlookup_appendIfNotNull_ne _ _ (by decide),
      jlookup_appendIfNotNull_ne _ _ (by decide)]
    simp +decide [jlookup]
  · rw [jlookup_appendIfNotNull_ne _ _ (by decide),
      jlookup_appendIfNotNull_ne _ _ (by decide)]
    simp +decide [jlookup]
  · rw [jlookup_appendIfNotNull_ne _ _ (by decide),
      jlookup_appendIfNotNull_ne _ _ (by decide)]
    simp +decide [jlookup]
  · rw [jlookup_appendIfNotNull_ne _ _ (by decide),
      jlookup_appendIfNotNull_ne _ _ (by decide)]
    simp +decide [jlookup]
  · rw [jlookup_appendIfNotNull_ne _ _ (by decide),
      jlookup_appendIfNotNull_self _ _ _ (by simp +decide [jlookup])]
  · rw [jlookup_appendIfNotNull_self _ _ _ (by
      rw [jlookup_appendIfNotNull_ne _ _ (by decide)]
      simp +decide [jlookup])]

theorem from_dict_ok_inv {data : JValue} {c : AfJobConfig}
    (h : AfJobConfig.from_dict data = Except.ok c) :
    c.name.truthy = true ∧ c.modelSeeds.truthy = true ∧
    (pyLen c.modelSeeds).isSome = true ∧ c.sequences ≠ [] ∧
    ∀ s ∈ c.sequences, seqWF s = true := by
  cases data with
  | obj kvs =>
      obtain ⟨entries, seqs, hseq, hp, hmk⟩ := from_dict_ok_shape h
      obtain ⟨h1, h2, h3, h4, -, -, hstruct⟩ := mkAfJobConfig_ok_inv hmk
      have hwf := parseSequencesData_wf hp
      rw [hstruct]
      refine ⟨h1, h2, h3, ?_, hwf⟩
      intro hnil
      have : seqs = [] := hnil
      rw [this] at h4
      simp at h4
  | null => exact absurd h (by simp [AfJobConfig.from_dict])
  | bool b => exact absurd h (by simp [AfJobConfig.from_dict])
  | int n => exact absurd h (by simp [AfJobConfig.from_dict])
  | str s2 => exact absurd h (by simp [AfJobConfig.from_dict])
  | arr xs => exact absurd h (by simp [AfJobConfig.from_dict])

theorem from_dict_to_dict_ok {c : AfJobConfig} {d : JValue}
    (hwfn : c.name.truthy = true) (hwfms : c.modelSeeds.truthy = true)
    (hlen : (pyLen c.modelSeeds).isSome = true) (hne : c.sequences ≠ [])
    (hwf : ∀ s ∈ c.sequences, seqWF s = true)
    (hgood : ∀ s ∈ c.sequences, goodMods s.modifications = true)
    (h2 : AfJobConfig.to_dict c = Except.ok d) :
    AfJobConfig.from_dict d = Except.ok c := by
  obtain ⟨seqDicts, dm, vm, hmap, hdm, hvm, hd⟩ := afToDict_ok_inv h2
  obtain ⟨e1, e2, e3, e4, e5, e6, e7⟩ := cfgEmitFields_lookups c seqDicts dm vm
  have hparse : parseSequencesData seqDicts = Except.ok c.sequences :=
    parse_of_mapE_toDict hwf hgood hmap
  have hseqget : jget (cfgEmitFields c seqDicts dm vm) "sequences" (.arr [])
      = .arr seqDicts := by unfold jget; rw [e3]
  subst hd
  rw [from_dict_obj_red (cfgEmitFields c seqDicts dm vm) seqDicts c.sequences
    hseqget hparse]
  have g1 : jget (cfgEmitFields c seqDicts dm vm) "name" .null = c.name := by
    unfold jget; rw [e1]
  have g2 : jget (cfgEmitFields c seqDicts dm vm) "modelSeeds" (.arr [])
      = c.modelSeeds := by unfold jget; rw [e2]
  have g4 : jget (cfgEmitFields c seqDicts dm vm) "dialect" .null
      = JValue.str dm.value := by unfold jget; rw [e4]
  have g6 : jget (cfgEmitFields c seqDicts dm vm) "bondedAtomPairs" .null
      = c.bondedAtomPairs := by rw [jget_of_jlookup e6, jvOfOpt_optEmit]
  have g7 : jget (cfgEmitFields c seqDicts dm vm) "userCCD" .null
      = c.userCCD := by rw [jget_of_jlookup e7, jvOfOpt_optEmit]
  rw [g1, g2, g4, g6, g7]
  simp only [e5]
  cases hlen2 : pyLen c.modelSeeds with
  | none => rw [hlen2] at hlen; exact absurd hlen (by simp)
  | some n =>
      have hn : ¬ n < 1 := by
        have := truthy_pyLen_ge hwfms hlen2
        omega
      rw [mkAfJobConfig_red c.name c.modelSeeds c.sequences
        (DialectInput.val (JValue.str dm.value))
        (VersionInput.val (JValue.int vm.value))
        c.bondedAtomPairs c.userCCD hwfn hwfms hlen2 hn hne]
      have hred : (match coerceVersion (VersionInput.val (JValue.int vm.value)) with
          | Except.error e => Except.error e
          | Except.ok v2 =>
              match coerceDialect (DialectInput.val (JValue.str dm.value)) with
              | Except.error e => Except.error e
              | Except.ok d2 =>
                  Except.ok (AfJobConfig.mk c.name c.modelSeeds c.sequences d2 v2
                    c.bondedAtomPairs c.userCCD)) =
          Except.ok (AfJobConfig.mk c.name c.modelSeeds c.sequences
            (DialectField.mem dm) (VersionField.mem vm)
            c.bondedAtomPairs c.userCCD) := by
        cases vm <;> cases dm <;> rfl
      rw [hred, ← hdm, ← hvm]

/-- C2 counterexample: the valid document c2doc carries an empty
modifications list; the first parse stores the empty list, to_dict
omits the falsy key, and the second parse stores None — so parsing the
re-serialized document does not reproduce the first parse. -/
theorem c2_counterexample : reparse c2doc ≠ AfJobConfig.from_dict c2doc := by
  intro h
  have h2 := congrArg firstSeqModsOf h
  have h3 : firstSeqModsOf (reparse c2doc) = some ModsField.none := rfl
  have h4 : firstSeqModsOf (AfJobConfig.from_dict c2doc)
      = some (ModsField.mods []) := rfl
  rw [h3, h4] at h2
  injection h2 with h5
  exact ModsField.noConfusion h5

/-- C2 amended: for every document whose first parse succeeds, whose
serialization succeeds, and in which every parsed sequence's
modifications field is either absent or a non-empty list of records
(the lossless cases — an empty list is serialized as an absent key and
breaks the law, as the counterexample shows), parsing the serialized
form reproduces the first parse:
fromDict(toDict(fromDict(D))) equals fromDict(D). -/
theorem c2_roundtrip_amended (data : JValue) (c : AfJobConfig) (d : JValue)
    (h1 : AfJobConfig.from_dict data = Except.ok c)
    (h2 : AfJobConfig.to_dict c = Except.ok d)
    (hmods : cfgGoodMods c = true) :
    reparse data = AfJobConfig.from_dict data := by
  obtain ⟨w1, w2, w3, w4, w5⟩ := from_dict_ok_inv h1
  have hgood : ∀ s ∈ c.sequences, goodMods s.modifications = true := by
    simp only [cfgGoodMods, List.all_eq_true] at hmods
    exact hmods
  have key : AfJobConfig.from_dict d = Except.ok c :=
    from_dict_to_dict_ok w1 w2 w3 w4 w5 hgood h2
  unfold reparse
  simp only [h1, h2, key]

/-- Witness for the amended C2 at a document with one protein sequence
carrying one modification. -/
theorem c2_roundtrip_amended_w :
    reparse (JValue.obj [("name", .str "j"), ("modelSeeds", .arr [.int 1]),
      ("sequences", .arr [.obj [("protein", .obj
        [("id", .str "a"), ("sequence", .str "A"),
         ("modifications", .arr [.obj [("ptmType", .str "phos"),
           ("ptmPosition", .int 1)]])])]]),
      ("dialect", .str "alphafold3"), ("version", .int 1)])
      = AfJobConfig.from_dict (JValue.obj [("name", .str "j"),
          ("modelSeeds", .arr [.int 1]),
          ("sequences", .arr [.obj [("protein", .obj
            [("id", .str "a"), ("sequence", .str "A"),
             ("modifications", .arr [.obj [("ptmType", .str "phos"),
               ("ptmPosition", .int 1)]])])]]),
          ("dialect", .str "alphafold3"), ("version", .int 1)]) :=
  c2_roundtrip_amended _
    (AfJobConfig.mk (.str "j") (.arr [.int 1])
      [Sequence.mk (.str "a") (.str "A") SeqType.protein
        (ModsField.mods [Modification.mk (.str "phos") (.int 1)])
        .null .null .null .null .null]
      (DialectField.mem Dialect.alphafold3) (VersionField.mem Version.v1)
      .null .null)
    (JValue.obj [("name", .str "j"), ("modelSeeds", .arr [.int 1]),
      ("sequences", .arr [.obj [("protein", .obj
        [("id", .str "a"), ("sequence", .str "A"),
         ("modifications", .arr [.obj [("ptmType", .str "phos"),
           ("ptmPosition", .int 1)]])])]]),
      ("dialect", .str "alphafold3"), ("version", .int 1)])
    rfl rfl (by decide)

end EasyAF3
